import Mathlib

/-!
Verification of the halal-restaurant-map web application.

This file gives a shallow embedding, in Lean, of the parts of the TypeScript
source that the specified properties concern:

* `src/lib/utils.ts` — `sanitizeInput`;
* the places-search route (`app/api/places/search/route.ts` variant that
  builds one OR'd cuisine clause, a name/address/city keyword clause, a tag
  containment clause, a price `ilike` clause and a legacy `search_terms`
  clause, all combined with AND);
* `src/app/api/chat/route.ts` — `emptyFilter`, `inferFilterFromMessage`,
  `isThinkingText`, `generateMessage`, `buildResponse` and the `POST` handler;
* `src/app/api/places/suggest/route.ts` — the `POST` handler;
* `src/lib/storage.ts` — `getStorageItem`, the `favorites` object and the
  `guestQueries` object;
* the chat panel's `processMessage` retry loop.

JavaScript strings are modelled as Lean `String` (ASCII data in practice),
`null`/`undefined` as `Option.none`, and Postgres `ILIKE` by an executable
pattern matcher `likeMatch` over lowercased character lists.
-/

/-! ## Basic JavaScript / SQL string helpers -/

/-- Lowercasing of one character, as done by `String.prototype.toLowerCase`
and by Postgres `lower` on the ASCII range: `A`..`Z` map to `a`..`z`, all
other characters are unchanged. -/
def lowerChar (c : Char) : Char :=
  if 65 ≤ c.toNat ∧ c.toNat ≤ 90 then Char.ofNat (c.toNat + 32) else c

/-- Lowercase a whole string characterwise. -/
def lowerStr (s : String) : String :=
  String.mk (s.toList.map lowerChar)

/-- Whitespace characters recognised by `String.prototype.trim` (restricted
to the ASCII whitespace actually occurring in this code base). -/
def isWsChar (c : Char) : Bool :=
  c == ' ' || c == '\t' || c == '\n' || c == '\r'

/-- Trim of a character list: drop leading and trailing whitespace, as
`String.prototype.trim` does. -/
def jsTrimList (l : List Char) : List Char :=
  ((l.dropWhile isWsChar).reverse.dropWhile isWsChar).reverse

/-- Trim of a string. -/
def jsTrimS (s : String) : String :=
  String.mk (jsTrimList s.toList)

/-- Characters removed by `sanitizeInput` (`/[%_'"\\]/g` in the source). -/
def badChar (c : Char) : Bool :=
  c == '%' || c == '_' || c == '\'' || c == '"' || c == '\\'

/-- Fixed maximum search length (`VALIDATION.MAX_SEARCH_LENGTH` in
`src/lib/constants.ts`). -/
def MAX_SEARCH_LENGTH : Nat := 100

/-- Embedding of `sanitizeInput` from `src/lib/utils.ts`:
`if (!str || typeof str !== 'string') return null;
 return str.replace(/[%_'"\\]/g, '').trim().slice(0, MAX) || null;`.
A missing value or a non-string value is modelled as `none` (both fail the
`typeof` guard identically); the empty string is falsy, hence also `none`. -/
def sanitizeInput (str : Option String) : Option String :=
  match str with
  | none => none
  | some s =>
    if s = "" then none
    else if (jsTrimList (s.toList.filter (fun c => !(badChar c)))).take MAX_SEARCH_LENGTH = [] then
      none
    else
      some (String.mk ((jsTrimList (s.toList.filter (fun c => !(badChar c)))).take MAX_SEARCH_LENGTH))

/-! ## List facts about trimming used below -/

lemma mem_dropWhile {α : Type} (p : α → Bool) :
    ∀ (l : List α) (a : α), a ∈ l.dropWhile p → a ∈ l := by
  intro l
  induction l with
  | nil => intro a h; simp [List.dropWhile] at h
  | cons b t ih =>
    intro a h
    rw [List.dropWhile] at h
    by_cases hb : p b
    · simp [hb] at h
      exact List.mem_cons_of_mem _ (ih a h)
    · simp [hb] at h
      simp [h]

lemma mem_jsTrimList {l : List Char} {c : Char} (h : c ∈ jsTrimList l) : c ∈ l := by
  unfold jsTrimList at h
  rw [List.mem_reverse] at h
  have h2 := mem_dropWhile _ _ _ h
  rw [List.mem_reverse] at h2
  exact mem_dropWhile _ _ _ h2

lemma dropWhile_head {α : Type} (p : α → Bool) :
    ∀ (l : List α) (c : α) (t : List α), l.dropWhile p = c :: t → p c = false := by
  intro l
  induction l with
  | nil => intro c t h; simp [List.dropWhile] at h
  | cons b l' ih =>
    intro c t h
    rw [List.dropWhile] at h
    by_cases hb : p b
    · simp [hb] at h
      exact ih c t h
    · simp [hb] at h
      rw [← h.1]
      simpa using hb

lemma dropWhile_sfx {α : Type} (p : α → Bool) :
    ∀ (l : List α), ∃ u, u ++ l.dropWhile p = l := by
  intro l
  induction l with
  | nil => exact ⟨[], rfl⟩
  | cons b t ih =>
    by_cases hb : p b
    · obtain ⟨u, hu⟩ := ih
      exact ⟨b :: u, by simp [List.dropWhile, hb, hu]⟩
    · exact ⟨[], by simp [List.dropWhile, hb]⟩

/-- The trimmed list extends to the original on both sides. -/
lemma jsTrimList_sandwich (l : List Char) :
    ∃ u v, u ++ jsTrimList l ++ v = l := by
  obtain ⟨u, hu⟩ := dropWhile_sfx isWsChar l
  obtain ⟨w, hw⟩ := dropWhile_sfx isWsChar (l.dropWhile isWsChar).reverse
  refine ⟨u, w.reverse, ?_⟩
  unfold jsTrimList
  have : (jsTrimList l) ++ w.reverse = l.dropWhile isWsChar := by
    unfold jsTrimList
    calc ((l.dropWhile isWsChar).reverse.dropWhile isWsChar).reverse ++ w.reverse
        = (w ++ (l.dropWhile isWsChar).reverse.dropWhile isWsChar).reverse := by
          rw [List.reverse_append]
      _ = ((l.dropWhile isWsChar).reverse).reverse := by rw [hw]
      _ = l.dropWhile isWsChar := by rw [List.reverse_reverse]
  rw [List.append_assoc]
  unfold jsTrimList at this
  rw [this, hu]

lemma jsTrimList_head {l : List Char} {c : Char} {t : List Char}
    (h : jsTrimList l = c :: t) : isWsChar c = false := by
  unfold jsTrimList at h
  -- the head of the trimmed list is the head of `l.dropWhile isWsChar`
  have h1 : ((l.dropWhile isWsChar).reverse.dropWhile isWsChar).reverse = c :: t := h
  obtain ⟨w, hw⟩ := dropWhile_sfx isWsChar (l.dropWhile isWsChar).reverse
  have h2 : l.dropWhile isWsChar = (c :: t) ++ w.reverse := by
    have := congrArg List.reverse hw
    rw [List.reverse_append, List.reverse_reverse, h1] at this
    exact this.symm
  exact dropWhile_head isWsChar l c (t ++ w.reverse) (by simpa using h2)

lemma jsTrimList_last {l : List Char} {c : Char} {t : List Char}
    (h : jsTrimList l = t ++ [c]) : isWsChar c = false := by
  unfold jsTrimList at h
  have h1 := congrArg List.reverse h
  rw [List.reverse_reverse, List.reverse_append] at h1
  simp only [List.reverse_cons, List.reverse_nil, List.nil_append, List.singleton_append] at h1
  exact dropWhile_head isWsChar (l.dropWhile isWsChar).reverse c t.reverse h1

/-! ## SQL LIKE pattern matching

The search route builds Postgres `ILIKE` patterns of the form `%value%`.
`likeMatch pat s` decides whether pattern `pat` (where `%` matches any
sequence of characters and `_` matches exactly one character) matches the
whole string `s`; `ILIKE` is `likeMatch` after lowercasing both sides. -/

/-- Does `f` accept some suffix of the list (including the list itself)? -/
def sfxAny (f : List Char → Bool) : List Char → Bool
  | [] => f []
  | c :: t => f (c :: t) || sfxAny f t

def likeMatch : List Char → List Char → Bool
  | [], s => s.isEmpty
  | c :: p', s =>
    if c = '%' then sfxAny (fun t => likeMatch p' t) s
    else
      match s with
      | [] => false
      | d :: t => (if c = '_' then true else c == d) && likeMatch p' t

/-- Characters that are literal in a LIKE pattern (not `%`, `_` or the
escape character `\`). -/
def plainChar (c : Char) : Bool :=
  !(c == '%' || c == '_' || c == '\\')

lemma likeMatch_pct_nil (p : List Char) :
    likeMatch ('%' :: p) [] = likeMatch p [] := by
  simp [likeMatch, sfxAny]

lemma likeMatch_pct_cons (p : List Char) (d : Char) (t : List Char) :
    likeMatch ('%' :: p) (d :: t) =
      (likeMatch p (d :: t) || likeMatch ('%' :: p) t) := by
  simp [likeMatch, sfxAny]

lemma likeMatch_plain_nil {c : Char} (p : List Char) (h : ¬ c = '%') :
    likeMatch (c :: p) [] = false := by
  simp [likeMatch, h]

lemma likeMatch_plain_cons {c : Char} (p : List Char) (d : Char) (t : List Char)
    (h1 : ¬ c = '%') (h2 : ¬ c = '_') :
    likeMatch (c :: p) (d :: t) = ((c == d) && likeMatch p t) := by
  simp [likeMatch, h1, h2]

lemma likeMatch_lit :
    ∀ (v s : List Char), (∀ c ∈ v, plainChar c = true) →
      likeMatch (v ++ ['%']) s = true → ∃ t, v ++ t = s := by
  intro v
  induction v with
  | nil => intro s _ _; exact ⟨s, rfl⟩
  | cons c v' ih =>
    intro s hv h
    have hc : plainChar c = true := hv c (List.mem_cons_self c v')
    have hcp : ¬ (c = '%') := by
      intro hq; rw [hq] at hc; simp [plainChar] at hc
    have hcu : ¬ (c = '_') := by
      intro hq; rw [hq] at hc; simp [plainChar] at hc
    rw [List.cons_append] at h
    match s with
    | [] => rw [likeMatch_plain_nil _ hcp] at h; exact absurd h (by simp)
    | d :: t =>
      rw [likeMatch_plain_cons _ _ _ hcp hcu] at h
      simp only [Bool.and_eq_true, beq_iff_eq] at h
      obtain ⟨hcd, hm⟩ := h
      obtain ⟨t', ht'⟩ := ih t (fun x hx => hv x (List.mem_cons_of_mem _ hx)) hm
      exact ⟨t', by rw [List.cons_append, ht', hcd]⟩

lemma likeMatch_pct :
    ∀ (s p : List Char), likeMatch ('%' :: p) s = true →
      ∃ u t, u ++ t = s ∧ likeMatch p t = true := by
  intro s
  induction s with
  | nil =>
    intro p h
    rw [likeMatch_pct_nil] at h
    exact ⟨[], [], rfl, h⟩
  | cons d t ih =>
    intro p h
    rw [likeMatch_pct_cons] at h
    rcases Bool.or_eq_true_iff.mp h with h | h
    · exact ⟨[], d :: t, rfl, h⟩
    · obtain ⟨u, t', hsplit, hm⟩ := ih p h
      exact ⟨d :: u, t', by rw [List.cons_append, hsplit], hm⟩

/-- A `%v%` pattern made of plain characters matches exactly when `v`
occurs as a contiguous substring. This is the no-false-positive direction. -/
lemma likeMatch_sub {v s : List Char} (hv : ∀ c ∈ v, plainChar c = true)
    (h : likeMatch ('%' :: (v ++ ['%'])) s = true) : v <:+: s := by
  obtain ⟨u, t, hsplit, hm⟩ := likeMatch_pct s (v ++ ['%']) h
  obtain ⟨t', ht'⟩ := likeMatch_lit v t hv hm
  exact ⟨u, t', by rw [← hsplit, ← ht', List.append_assoc]⟩

/-- Postgres `col ILIKE '%v%'` with a non-null text column. -/
def ilikeS (col : String) (v : String) : Bool :=
  likeMatch ('%' :: ((lowerStr v).toList ++ ['%'])) (lowerStr col).toList

/-- Postgres `col ILIKE '%v%'` on a nullable text column: `NULL` never
matches. -/
def ilikeOpt (col : Option String) (v : String) : Bool :=
  match col with
  | none => false
  | some s => ilikeS s v

/-! ## The places table and the search filter -/

/-- One row of the `places` table, with the columns the search route touches
(`src/lib/supabase.ts` declares `name` non-null and the other text columns
nullable; `tags` is a nullable text array). -/
structure Place where
  id : String
  name : String
  address : Option String
  city : Option String
  cuisine_subtype : Option String
  cuisine_category : Option String
  price_level : Option String
  halal_status : Option String
  tags : Option (List String)
deriving DecidableEq

/-- The `PlaceFilter` record from `src/lib/types.ts` as received by the
search route. `none` stands for an absent field as well as an explicit
`null` (the route treats both identically). -/
structure PlaceFilter where
  cuisine_subtype : Option String := none
  cuisine_category : Option String := none
  price_level : Option String := none
  tag : Option String := none
  keyword : Option String := none
  favorites : Option Bool := none
  search_terms : Option (List String) := none
deriving DecidableEq

/-- JavaScript truthiness of a string-or-null field: `null`, `undefined`
and `""` are falsy, every other string is truthy. -/
def truthyOS (v : Option String) : Bool :=
  match v with
  | none => false
  | some s => !(s == "")

/-- One disjunct of the route's `.some` emptiness check:
`v !== null && v !== undefined && (Array.isArray(v) ? v.length > 0 : String(v).trim() !== '')`. -/
def strHasContent (v : Option String) : Bool :=
  match v with
  | none => false
  | some s => !(jsTrimS s == "")

/-- Embedding of the route's `hasAny` test over `Object.values(filter)`:
a string field counts when its trim is non-empty, an array field when it is
non-empty, and a present boolean always (`String(b).trim()` is `"true"` or
`"false"`, never empty). -/
def hasAnyFilter (f : PlaceFilter) : Bool :=
  strHasContent f.cuisine_subtype || strHasContent f.cuisine_category ||
    strHasContent f.price_level || strHasContent f.tag || strHasContent f.keyword ||
    (match f.search_terms with
     | some l => !l.isEmpty
     | none => false) ||
    f.favorites.isSome

/-- One pushed `.or` condition `col.ilike.%v%` for an optional filter field:
contributes only when the field is truthy. -/
def condOf (v : Option String) (col : Option String) : Bool :=
  match v with
  | none => false
  | some s => if s = "" then false else ilikeOpt col s

/-- The cuisine clause of the search route: when `cuisine_subtype` or
`cuisine_category` is truthy, the pushed conditions are OR'd into one
`query.or(...)` clause. -/
def cuisineClause (f : PlaceFilter) (p : Place) : Bool :=
  if truthyOS f.cuisine_subtype || truthyOS f.cuisine_category then
    condOf f.cuisine_subtype p.cuisine_subtype || condOf f.cuisine_category p.cuisine_category
  else true

/-- The keyword clause: `name.ilike.%k%,address.ilike.%k%,city.ilike.%k%`
OR'd into one clause, applied only when `keyword` is truthy. -/
def keywordClause (f : PlaceFilter) (p : Place) : Bool :=
  match f.keyword with
  | none => true
  | some k =>
    if k = "" then true
    else ilikeS p.name k || ilikeOpt p.address k || ilikeOpt p.city k

/-- The tag clause: `query.contains('tags', [tag])`, i.e. the `tags` array
is non-null and contains the tag exactly. -/
def tagClause (f : PlaceFilter) (p : Place) : Bool :=
  match f.tag with
  | none => true
  | some t =>
    if t = "" then true
    else
      match p.tags with
      | none => false
      | some l => l.contains t

/-- The price clause: `query.ilike('price_level', `%v%`)`. -/
def priceClause (f : PlaceFilter) (p : Place) : Bool :=
  match f.price_level with
  | none => true
  | some v =>
    if v = "" then true
    else ilikeOpt p.price_level v

/-- One `search_terms` term expanded over the five text columns. -/
def termMatch (t : String) (p : Place) : Bool :=
  ilikeS p.name t || ilikeOpt p.address t || ilikeOpt p.city t ||
    ilikeOpt p.cuisine_subtype t || ilikeOpt p.cuisine_category t

/-- The legacy `search_terms` clause: every non-empty trimmed term is
expanded over five columns and all expansions are OR'd together; with no
usable term the clause is not applied. -/
def searchTermsClause (f : PlaceFilter) (p : Place) : Bool :=
  match f.search_terms with
  | none => true
  | some l =>
    if l.isEmpty then true
    else
      let tms := (l.map jsTrimS).filter (fun t => !(t == ""))
      if tms.isEmpty then true else tms.any (fun t => termMatch t p)

/-- Conjunction of all clauses the route stacks onto the query builder
(`supabase` combines separate builder calls with AND). -/
def rowMatches (f : PlaceFilter) (p : Place) : Bool :=
  cuisineClause f p && keywordClause f p && tagClause f p &&
    priceClause f p && searchTermsClause f p

/-- Fixed row cap of every search query (`limit(2000)`). -/
def MAX_PLACES_LIMIT : Nat := 2000

/-- Embedding of the search route's `POST` handler on a database state
`db` (the rows of the `places` table, in table order): an entirely empty
filter short-circuits to `select * limit 2000`; otherwise the stacked
clauses filter the table and the cap applies to the filtered rows. -/
def placesSearchPOST (f : PlaceFilter) (db : List Place) : List Place :=
  if hasAnyFilter f = false then db.take MAX_PLACES_LIMIT
  else (db.filter (rowMatches f)).take MAX_PLACES_LIMIT

/-- The filter sent by a request with no `filter` key at all
(`body?.filter || {}`). -/
def noFilterRequest : PlaceFilter := {}

/-! ## JavaScript substring search (`String.prototype.includes`) -/

/-- Bool test that `n` starts the list `h`. -/
def headsList (n h : List Char) : Bool :=
  match n, h with
  | [], _ => true
  | _ :: _, [] => false
  | a :: as, b :: bs => a == b && headsList as bs

/-- Bool test that `n` occurs contiguously inside `h`. -/
def occursIn (n h : List Char) : Bool :=
  match h with
  | [] => n.isEmpty
  | _ :: t => headsList n h || occursIn n t

/-- Embedding of `hay.includes(needle)`. -/
def strIncludes (hay needle : String) : Bool :=
  occursIn needle.toList hay.toList

lemma headsList_iff (n h : List Char) :
    headsList n h = true ↔ ∃ t, n ++ t = h := by
  induction n generalizing h with
  | nil => simp [headsList]
  | cons a as ih =>
    cases h with
    | nil => simp [headsList]
    | cons b bs =>
      rw [headsList]
      simp only [Bool.and_eq_true, beq_iff_eq, ih]
      constructor
      · rintro ⟨rfl, t, rfl⟩; exact ⟨t, rfl⟩
      · rintro ⟨t, ht⟩
        injection ht with h1 h2
        exact ⟨h1, t, h2⟩

lemma occursIn_iff (n h : List Char) :
    occursIn n h = true ↔ n <:+: h := by
  induction h with
  | nil =>
    simp only [occursIn, List.isEmpty_iff]
    constructor
    · rintro rfl; exact ⟨[], [], rfl⟩
    · rintro ⟨u, v, huv⟩
      exact (List.append_eq_nil.mp (List.append_eq_nil.mp huv).1).2
  | cons b bs ih =>
    rw [occursIn]
    simp only [Bool.or_eq_true, headsList_iff, ih]
    constructor
    · rintro (⟨t, ht⟩ | hin)
      · exact ⟨[], t, by simpa using ht⟩
      · obtain ⟨u, v, huv⟩ := hin
        exact ⟨b :: u, v, by rw [← huv]; simp⟩
    · rintro ⟨u, v, huv⟩
      cases u with
      | nil =>
        left
        exact ⟨v, by simpa using huv⟩
      | cons x xs =>
        right
        rw [List.cons_append, List.cons_append] at huv
        injection huv with h1 h2
        exact ⟨xs, v, by simpa using h2⟩

/-! ## The chat route (`src/app/api/chat/route.ts`) -/

/-- The `FilterShape` record of the chat route: six fields, each nullable. -/
structure FilterShape where
  cuisine_subtype : Option String := none
  cuisine_category : Option String := none
  price_level : Option String := none
  tag : Option String := none
  keyword : Option String := none
  favorites : Option Bool := none
deriving DecidableEq

/-- Embedding of `emptyFilter()`: every field `null`. -/
def emptyFilter : FilterShape := {}

/-- The ordered cuisine keyword table of `inferFilterFromMessage`
("order matters - more specific first"). -/
def cuisineMap : List (String × String) :=
  [("yakiniku", "Yakiniku"), ("gyudon", "Gyudon"), ("tempura", "Tempura"),
   ("udon", "Udon"), ("soba", "Soba"), ("ramen", "Ramen"), ("sushi", "Sushi"),
   ("indian", "Indian"), ("pakistani", "Pakistani"), ("turkish", "Turkish"),
   ("kebab", "Kebab"), ("curry", "Curry"), ("chinese", "Chinese"),
   ("korean", "Korean"), ("thai", "Thai"), ("vietnamese", "Vietnamese"),
   ("indonesian", "Indonesian"), ("malaysian", "Malaysian"),
   ("middle eastern", "Middle Eastern"), ("mediterranean", "Mediterranean"),
   ("burger", "Burger"), ("pizza", "Pizza"), ("chicken", "Chicken"),
   ("seafood", "Seafood"), ("vegetarian", "Vegetarian"), ("vegan", "Vegan")]

/-- The ordered location table of `inferFilterFromMessage`. -/
def locationsList : List String :=
  ["shinjuku", "shibuya", "tokyo", "osaka", "kyoto", "asakusa",
   "ginza", "akihabara", "harajuku", "ikebukuro", "ueno", "roppongi",
   "shinagawa", "ebisu", "meguro", "nakano", "kichijoji", "yokohama",
   "kobe", "nara", "hiroshima", "fukuoka", "sapporo", "nagoya",
   "sendai", "kanazawa", "okinawa"]

/-- Embedding of `loc.charAt(0).toUpperCase() + loc.slice(1)`; the tables
only hold ASCII lowercase names, and uppercasing one ASCII character maps
`a`..`z` to `A`..`Z`. -/
def capitalizeFirst (s : String) : String :=
  match s.toList with
  | [] => ""
  | c :: rest =>
    String.mk ((if 97 ≤ c.toNat ∧ c.toNat ≤ 122 then Char.ofNat (c.toNat - 32) else c) :: rest)

/-- Embedding of `inferFilterFromMessage` (the fallback keyword-table
inference of the chat route): first matching cuisine keyword sets
`cuisine_subtype`, first matching location sets `keyword` (capitalized),
and price words set `price_level`; all other fields stay absent. -/
def inferFilterFromMessage (userMessage : String) : FilterShape :=
  let msg := lowerStr userMessage
  { cuisine_subtype := (cuisineMap.find? (fun kv => strIncludes msg kv.1)).map (fun kv => kv.2)
    keyword := (locationsList.find? (fun loc => strIncludes msg loc)).map capitalizeFirst
    price_level :=
      if strIncludes msg "cheap" || strIncludes msg "budget" ||
          strIncludes msg "affordable" || strIncludes msg "inexpensive" then
        some "Budget"
      else if strIncludes msg "expensive" || strIncludes msg "fancy" ||
          strIncludes msg "fine dining" || strIncludes msg "upscale" then
        some "Fine Dining"
      else if strIncludes msg "mid-range" || strIncludes msg "moderate" then
        some "Mid-range"
      else none }

/-- The indicator substrings of `isThinkingText`. -/
def thinkingIndicators : List String :=
  ["the user says", "the user wants", "the user is asking", "they want",
   "we need to", "i need to", "i should", "let me", "let's", "since we",
   "since the", "the tool", "querytype", "querydatabase", "filter by",
   "we can query", "we could", "we might", "the query", "so we", "but we",
   "however", "therefore", "this means", "in order to", "to find", "to get",
   "to search", "hallucinate", "must not", "cannot filter"]

/-- Embedding of `isThinkingText`: short or empty text is never thinking
text; otherwise the trimmed, lowercased text is scanned for any indicator. -/
def isThinkingText (text : String) : Bool :=
  if text = "" || text.length < 10 then false
  else
    let t := lowerStr (jsTrimS text)
    thinkingIndicators.any (fun ind => strIncludes t ind)

/-- Embedding of `generateMessage`: builds the parts list from the filter
and formats the count text around it. -/
def generateMessage (filter : FilterShape) (placesCount : Option Nat) : String :=
  let parts : List String :=
    (match filter.cuisine_subtype with
     | some s => if s = "" then [] else [lowerStr s]
     | none => []) ++
    (match filter.keyword with
     | some k => if k = "" then [] else ["in " ++ k]
     | none => []) ++
    (if filter.price_level = some "Budget" then ["(budget-friendly)"]
     else if filter.price_level = some "Fine Dining" then ["(fine dining)"]
     else [])
  let countText :=
    match placesCount with
    | some n => "Found " ++ toString n ++ " halal"
    | none => "Here are halal"
  if parts.isEmpty then
    match placesCount with
    | some n => "Found " ++ toString n ++ " halal restaurants! 🍽️"
    | none => "Here are some halal restaurants for you! 🍽️"
  else
    countText ++ " " ++ String.intercalate " " parts ++ " restaurants for you! 🍽️"

/-! ## `buildResponse` and the chat `POST` handler -/

/-- One dynamically-typed JSON field of the model's output, as inspected by
the `typeof` guards in `buildResponse`. `jnull` covers both an absent key
and an explicit `null` (every guard treats them identically), and `jother`
covers all remaining JSON values (numbers, arrays, objects). -/
inductive JField where
  | jstr : String → JField
  | jbool : Bool → JField
  | jnull : JField
  | jother : JField
deriving DecidableEq

/-- The `filter` object recovered from the model response. -/
structure ParsedFilter where
  cuisine_subtype : JField := JField.jnull
  cuisine_category : JField := JField.jnull
  price_level : JField := JField.jnull
  tag : JField := JField.jnull
  keyword : JField := JField.jnull
  favorites : JField := JField.jnull
deriving DecidableEq

/-- The JSON object recovered by `extractJsonFromResponse`: `filter` is
`none` when the key is absent or not an object. -/
structure ParsedObj where
  filter : Option ParsedFilter := none
  message : JField := JField.jnull
deriving DecidableEq

/-- The string value of a `typeof x === "string" ? x : null` guard. -/
def strField (j : JField) : Option String :=
  match j with
  | JField.jstr s => some s
  | _ => none

/-- JavaScript truthiness filter on a nullable string: `null`, `undefined`
and `""` give `none`. -/
def truthyS : Option String → Option String
  | some s => if s = "" then none else some s
  | none => none

/-- JavaScript `x || y || null` on nullable strings: the first truthy
operand, else `null`. -/
def jsOrS (a b : Option String) : Option String :=
  match truthyS a with
  | some s => some s
  | none => truthyS b

/-- A listed place in the chat response (`{ name, cuisine }`). -/
structure NamedPlace where
  name : String
  cuisine : String
deriving DecidableEq

/-- The structured body of a chat response, before `JSON.stringify`. -/
structure BuiltResponse where
  filter : FilterShape
  message : String
  places : Option (List NamedPlace) := none
deriving DecidableEq

/-- The `{ name, cuisine }` projection of one place row in `buildResponse`
(`String(p.name || "Unknown")` and the `cuisine_subtype || cuisine_category
|| "Halal"` truthiness chain). -/
def namedOfPlace (p : Place) : NamedPlace :=
  { name := if p.name = "" then "Unknown" else p.name
    cuisine :=
      match jsOrS p.cuisine_subtype p.cuisine_category with
      | some c => c
      | none => "Halal" }

/-- Embedding of `buildResponse`: combine the parsed model output with the
inferred filter, pick or generate the user-facing message, and attach up to
ten places. -/
def buildResponse (parsed : Option ParsedObj) (userMessage : String)
    (places : Option (List Place)) : BuiltResponse :=
  let inferred := inferFilterFromMessage userMessage
  let filter : FilterShape :=
    match parsed with
    | some po =>
      match po.filter with
      | some pf =>
        { cuisine_subtype := jsOrS (strField pf.cuisine_subtype) inferred.cuisine_subtype
          cuisine_category := jsOrS (strField pf.cuisine_category) inferred.cuisine_category
          price_level := jsOrS (strField pf.price_level) inferred.price_level
          tag := jsOrS (strField pf.tag) none
          keyword := jsOrS (strField pf.keyword) inferred.keyword
          favorites :=
            match pf.favorites with
            | JField.jbool b => some b
            | _ => none }
      | none => inferred
    | none => inferred
  let message0 : String :=
    match parsed with
    | some po =>
      match strField po.message with
      | some m => if m ≠ "" ∧ ¬ (isThinkingText m = true) then m else ""
      | none => ""
    | none => ""
  let message :=
    if message0 = "" || isThinkingText message0 then
      generateMessage filter (places.map List.length)
    else message0
  let placesOut : Option (List NamedPlace) :=
    match places with
    | some l => if l.isEmpty then none else some ((l.take 10).map namedOfPlace)
    | none => none
  { filter := filter, message := message, places := placesOut }

/-- One chat message as sent to the completion service (after
`normalizeContent`, contents are plain strings). -/
structure CMsg where
  role : String
  content : String
deriving DecidableEq

/-- One tool call in a completion choice. -/
structure ToolCall where
  id : String
  fname : Option String
  arguments : Option String
deriving DecidableEq

/-- The `message` part of a completion choice. -/
structure CMessage where
  content : Option String := none
  tool_calls : List ToolCall := []
deriving DecidableEq

/-- One completion choice. -/
structure Choice where
  message : Option CMessage := none
deriving DecidableEq

/-- A completion returned by `chatWithApriel`. -/
structure Completion where
  choices : List Choice := []
deriving DecidableEq

/-- The parsed `queryDatabase` tool arguments (`args.cuisine`,
`args.keyword`). -/
structure ToolArgs where
  cuisine : Option String := none
  keyword : Option String := none
deriving DecidableEq

/-- The parsed request body: `messages` is `none` when the key is missing
or not an array. -/
structure ReqBody where
  messages : Option (List CMsg) := none
deriving DecidableEq

/-- The parameters of one supabase read issued by the chat route. -/
structure DbQuery where
  cuisine : Option String := none
  keyword : Option String := none
deriving DecidableEq

/-- A supabase result: `{ data, error }`; supabase reports failures in the
`error` field rather than throwing. -/
structure DbResult where
  data : Option (List Place) := none
  error : Option String := none

/-- The effect environment of one chat `POST` request. `Except.error`
models a thrown JavaScript exception (rejected promise): `request` is
`await req.json()`, `llm` is `chatWithApriel` (used for both calls),
`db` the supabase reads, `parseArgs` the `JSON.parse` of tool-call
arguments, and `extract` is `extractJsonFromResponse` (which never throws:
it catches all its internal parse errors). -/
structure ChatEnv where
  request : Except String ReqBody
  llm : List CMsg → Except String Completion
  db : DbQuery → DbResult
  parseArgs : String → Except String ToolArgs
  extract : String → Option ParsedObj

/-- The JSON shape of the route's reply (before `JSON.stringify` of the
content). -/
structure AssistantReply where
  role : String
  content : BuiltResponse
deriving DecidableEq

/-- The greeting reply for an empty or missing message list. -/
def greetingReply : AssistantReply :=
  { role := "assistant"
    content := { filter := emptyFilter
                 message := "Assalamualaikum! 👋 Ask me about halal food in Japan!" } }

/-- The catch-all reply of the route's `catch` block. -/
def fallbackReply : AssistantReply :=
  { role := "assistant"
    content := { filter := emptyFilter
                 message := "Sorry, something went wrong. Please try again! 🙏" } }

/-- The last `user` message of the conversation, or `""`. -/
def lastUserText (msgs : List CMsg) : String :=
  match msgs.reverse.find? (fun m => m.role == "user") with
  | some m => m.content
  | none => ""

/-- The tool result string built from the database read in the tool-call
branch: a database error is stringified, not thrown. -/
def toolResultOf (dbres : DbResult) : String :=
  match dbres.error with
  | some e => "Error: " ++ e
  | none =>
    match dbres.data with
    | none => "No restaurants found."
    | some l =>
      if l.isEmpty then "No restaurants found."
      else "Found " ++ toString l.length ++ " restaurants: " ++
        String.intercalate ", " ((l.take 5).map (fun p => p.name))

/-- The direct-response branch (step 3 of the handler): extract JSON from
the choice content, query the database from the parsed/inferred cuisine and
keyword, and build the response. -/
def chatDirect (env : ChatEnv) (userText : String) (m : CMessage) : AssistantReply :=
  let parsed := env.extract (match m.content with | some c => c | none => "")
  let inferred := inferFilterFromMessage userText
  let pf : Option ParsedFilter :=
    match parsed with
    | some po => po.filter
    | none => none
  let cuisine := jsOrS (match pf with
    | some x => strField x.cuisine_subtype
    | none => none) inferred.cuisine_subtype
  let keyword := jsOrS (match pf with
    | some x => strField x.keyword
    | none => none) inferred.keyword
  let places : Option (List Place) :=
    if cuisine.isSome || keyword.isSome then (env.db { cuisine := cuisine, keyword := keyword }).data
    else none
  { role := "assistant", content := buildResponse parsed userText places }

/-- The no-choice branch of the handler (`!choice?.message`): query from the
inferred filter alone and build the response with no parsed object. -/
def chatNoChoice (env : ChatEnv) (userText : String) : AssistantReply :=
  let inferred := inferFilterFromMessage userText
  let places : Option (List Place) :=
    if truthyOS inferred.cuisine_subtype || truthyOS inferred.keyword then
      (env.db { cuisine := inferred.cuisine_subtype, keyword := inferred.keyword }).data
    else none
  { role := "assistant", content := buildResponse none userText places }

/-- The `queryDatabase` tool-call branch: parse the arguments (a throwing
`JSON.parse`), read the database, issue the second completion call with the
tool result appended, and build the response from its content. -/
def chatToolCall (env : ChatEnv) (msgs : List CMsg) (userText : String)
    (tc : ToolCall) : Except String AssistantReply := do
  let args ← env.parseArgs (match tc.arguments with | some a => a | none => "{}")
  let inferred := inferFilterFromMessage userText
  let cuisine := jsOrS args.cuisine inferred.cuisine_subtype
  let keyword := jsOrS args.keyword inferred.keyword
  let dbres := env.db { cuisine := cuisine, keyword := keyword }
  let final ← env.llm (msgs ++ [{ role := "tool", content := toolResultOf dbres }])
  let finalContent :=
    match final.choices.head? with
    | some ch =>
      (match ch.message with
       | some fm => (match fm.content with | some c => c | none => "")
       | none => "")
    | none => ""
  let parsed := env.extract finalContent
  return { role := "assistant", content := buildResponse parsed userText dbres.data }

/-- The body of the chat `POST` handler (the `try` block): an
`Except.error` is a JavaScript exception escaping the body. -/
def chatPOSTBody (env : ChatEnv) : Except String AssistantReply := do
  let body ← env.request
  match body.messages with
  | none => return greetingReply
  | some msgs =>
    if msgs.isEmpty then return greetingReply
    else
      let userText := lastUserText msgs
      let completion ← env.llm msgs
      match (match completion.choices.head? with
             | some ch => ch.message
             | none => none) with
      | none => return chatNoChoice env userText
      | some m =>
        match m.tool_calls.head? with
        | some tc =>
          if tc.fname = some "queryDatabase" then chatToolCall env msgs userText tc
          else return chatDirect env userText m
        | none => return chatDirect env userText m

/-- The chat `POST` handler: the body wrapped in the route's catch-all,
which converts every thrown exception into `fallbackReply`. -/
def chatPOST (env : ChatEnv) : AssistantReply :=
  match chatPOSTBody env with
  | Except.ok r => r
  | Except.error _ => fallbackReply

/-! ## The suggestion-intake route (`src/app/api/places/suggest/route.ts`) -/

/-- The request body of a suggestion submission; every field is optional in
transit (`none` models a missing key, `null`, or — for the required-field
guards, equivalently — a non-string value). -/
structure SuggestBody where
  name : Option String := none
  address : Option String := none
  city : Option String := none
  cuisineType : Option String := none
  halalStatus : Option String := none
  phone : Option String := none
  website : Option String := none
  notes : Option String := none
  submitterEmail : Option String := none
deriving DecidableEq

/-- JavaScript `!body.x?.trim()`: a missing field or a field whose trim is
the empty string. -/
def jsBlank (v : Option String) : Bool :=
  match v with
  | none => true
  | some s => jsTrimS s == ""

/-- The trimmed-and-truncated optional-field normalization
`body.x?.trim().slice(0, n) || null`. -/
def truncField (v : Option String) (n : Nat) : Option String :=
  match v with
  | none => none
  | some s =>
    let t := (jsTrimList s.toList).take n
    if t = [] then none else some (String.mk t)

/-- The trimmed-and-truncated required-field normalization
`body.x.trim().slice(0, n)` (only reached when the field is present). -/
def truncReq (v : Option String) (n : Nat) : String :=
  match v with
  | none => ""
  | some s => String.mk ((jsTrimList s.toList).take n)

/-- The normalized suggestion record written to the log (the `created_at`
timestamp is outside the pure model and omitted). -/
structure SuggestionData where
  name : String
  address : String
  city : Option String
  cuisine_type : Option String
  halal_status : Option String
  phone : Option String
  website : Option String
  notes : Option String
  submitter_email : Option String
  status : String
deriving DecidableEq

/-- The HTTP response of the suggestion route. -/
structure SuggestResponse where
  status : Nat
  success : Option Bool := none
  message : Option String := none
  error : Option String := none
deriving DecidableEq

/-- Embedding of the suggestion route's `POST` handler. The second
component is the recorded suggestion (`none` when nothing is recorded). -/
def suggestPOST (b : SuggestBody) : SuggestResponse × Option SuggestionData :=
  if jsBlank b.name || jsBlank b.address then
    ({ status := 400, error := some "Restaurant name and address are required." }, none)
  else
    let d : SuggestionData :=
      { name := truncReq b.name 200
        address := truncReq b.address 500
        city := truncField b.city 100
        cuisine_type := truncField b.cuisineType 100
        halal_status := truncField b.halalStatus 100
        phone := truncField b.phone 50
        website := truncField b.website 500
        notes := truncField b.notes 1000
        submitter_email := truncField b.submitterEmail 200
        status := "pending" }
    ({ status := 200, success := some true,
       message := some "Suggestion submitted successfully" }, some d)

/-! ## Browser storage (`src/lib/storage.ts`) -/

/-- A JSON value as produced by `JSON.parse` (numbers modelled as integers;
the stored values of this app are arrays of id strings and counters). -/
inductive JVal where
  | jnum : Int → JVal
  | jstr : String → JVal
  | jbool : Bool → JVal
  | jnull : JVal
  | jarr : List JVal → JVal

/-- The observable state of one localStorage key: the storage environment
may be unavailable (server-side rendering), the key may be absent (also
covers the falsy empty string), the stored text may fail `JSON.parse`, or
it parses to a JSON value. -/
inductive StoredCell where
  | unavailable : StoredCell
  | absent : StoredCell
  | corrupt : StoredCell
  | stored : JVal → StoredCell

/-- Embedding of `getStorageItem`: outside a browser or on a missing key the
fallback is returned; a `JSON.parse` failure is caught and also yields the
fallback; otherwise the parsed value is returned unchecked. -/
def getStorageItem (cell : StoredCell) (fallback : JVal) : JVal :=
  match cell with
  | StoredCell.unavailable => fallback
  | StoredCell.absent => fallback
  | StoredCell.corrupt => fallback
  | StoredCell.stored v => v

/-- Embedding of `favorites.getAll()`: the favorites key read with fallback
`[]`. -/
def favoritesGetAllRaw (cell : StoredCell) : JVal :=
  getStorageItem cell (JVal.jarr [])

/-- Embedding of `guestQueries.getUsedCount()`: the guest-counter key read
with fallback `0`. -/
def guestUsedCountRaw (cell : StoredCell) : JVal :=
  getStorageItem cell (JVal.jnum 0)

/-- The guest quota constant `GUEST_CONFIG.MAX_FREE_QUERIES`. -/
def MAX_FREE_QUERIES : Int := 3

/-- Embedding of `guestQueries.getRemainingCount()`:
`Math.max(0, MAX_FREE_QUERIES - getUsedCount())`, defined on the numeric
domain; `none` models the `NaN` that JavaScript arithmetic propagates when
the stored counter is valid JSON of a non-numeric type. -/
def guestRemainingCount (cell : StoredCell) : Option Int :=
  match guestUsedCountRaw cell with
  | JVal.jnum n => some (max 0 (MAX_FREE_QUERIES - n))
  | _ => none

/-- Embedding of the typed favorites list the mutation functions work on:
the well-typed reading of the stored value (a list of id strings). The
mutation operations below act on this list state. -/
def favoritesAdd (σ : List String) (id : String) : List String :=
  if σ.contains id then σ else σ ++ [id]

/-- Embedding of `favorites.remove`: keep every element different from the
id. -/
def favoritesRemove (σ : List String) (id : String) : List String :=
  σ.filter (fun x => !(x == id))

/-- Embedding of `favorites.toggle`: remove when present, add when absent. -/
def favoritesToggle (σ : List String) (id : String) : List String :=
  if σ.contains id then favoritesRemove σ id else favoritesAdd σ id

/-- Embedding of the Favorites panel's `favoritePlaces` memo
(`places.filter(p => favIds.includes(p.id))`). -/
def favoritePlaces (places : List Place) (σ : List String) : List Place :=
  places.filter (fun p => σ.contains p.id)

/-! ## The chat panel's 429 retry loop (`processMessage`) -/

/-- One scripted server response to `fetch('/api/chat')`, with the fields
the retry dispatch of `processMessage` reads: the HTTP status, the
`retryAfter` hint of a 429 body, the `error` of a non-ok body, and the
user-facing message recovered from an ok body (the JSON plumbing of the
success path is summarized by this field). -/
structure SResp where
  status : Nat
  retryAfter : Option Int := none
  error : Option String := none
  okMessage : Option String := none
deriving DecidableEq

/-- The client state the retry loop mutates: the chat message list (role
and content), the total milliseconds slept in retry waits, and the number
of requests issued. -/
structure ClientState where
  messages : List (String × String) := []
  waitedMs : Int := 0
  attempts : Nat := 0
deriving DecidableEq

/-- Embedding of `processMessage`'s response dispatch, driven by a finite
script of server responses (one consumed per issued request; an exhausted
script ends the run). On a 429 the client appends the overloaded notice,
sleeps `(retryAfter || 10)` seconds, appends `"Retrying now..."` and calls
itself recursively — with no attempt bound. A non-ok status throws into the
catch block, which appends an error message; an ok response appends the
recovered assistant message (or the no-response notice). -/
def processMessage (resps : List SResp) (st : ClientState) : ClientState :=
  match resps with
  | [] => st
  | r :: rest =>
    let st1 : ClientState := { st with attempts := st.attempts + 1 }
    if r.status = 429 then
      let waitSeconds : Int :=
        match r.retryAfter with
        | some n => if n = 0 then 10 else n
        | none => 10
      let st2 : ClientState :=
        { st1 with
            messages := st1.messages ++
              [("assistant", "Server overloaded. Retrying in " ++ toString waitSeconds ++ "s...")]
            waitedMs := st1.waitedMs + waitSeconds * 1000 }
      let st3 : ClientState :=
        { st2 with messages := st2.messages ++ [("assistant", "Retrying now...")] }
      processMessage rest st3
    else if r.status ≠ 200 then
      { st1 with
          messages := st1.messages ++
            [("assistant", "Error: " ++
              (match r.error with
               | some e => e
               | none => "Failed to connect to AI service. (" ++ toString r.status ++ ")"))] }
    else
      { st1 with
          messages := st1.messages ++
            [("assistant",
              match r.okMessage with
              | some msg => msg
              | none => "I didn't get a response. Please try again.")] }

/-- The number of `"Retrying now..."` entries in a message list. -/
def retryingCount (msgs : List (String × String)) : Nat :=
  (msgs.filter (fun m => m.2 == "Retrying now...")).length

/-! ## Properties of the input sanitizer -/

lemma take_cons_ex {α : Type} {l : List α} {n : Nat} {c : α} {t : List α}
    (h : l.take n = c :: t) : ∃ t', l = c :: t' := by
  cases l with
  | nil => simp at h
  | cons a l' =>
    cases n with
    | zero => simp at h
    | succ m =>
      rw [List.take_succ_cons] at h
      injection h with h1 _
      exact ⟨l', by rw [h1]⟩

/-- Unfolding equation of `sanitizeInput` on a present string. -/
lemma sanitizeInput_eq (s : String) :
    sanitizeInput (some s) =
      if s = "" then none
      else if (jsTrimList (s.toList.filter (fun c => !(badChar c)))).take MAX_SEARCH_LENGTH = [] then
        none
      else
        some (String.mk ((jsTrimList (s.toList.filter (fun c => !(badChar c)))).take MAX_SEARCH_LENGTH)) :=
  rfl

/-- The sanitized output, when some, is the truncation of the trimmed,
filtered input. -/
lemma sanitizeInput_some {s r : String} (h : sanitizeInput (some s) = some r) :
    r.toList = (jsTrimList (s.toList.filter (fun c => !(badChar c)))).take MAX_SEARCH_LENGTH := by
  rw [sanitizeInput_eq] at h
  by_cases hs : s = ""
  · rw [if_pos hs] at h
    cases h
  · rw [if_neg hs] at h
    by_cases hc : (jsTrimList (s.toList.filter (fun c => !(badChar c)))).take MAX_SEARCH_LENGTH = []
    · rw [if_pos hc] at h
      cases h
    · rw [if_neg hc] at h
      injection h with h1
      rw [← h1]
      rfl

/-- Claim C4, counterexample: sanitizing the 101-character string
`"a" + " "×99 + "b"` (which has no surrounding whitespace, so trimming is
the identity) truncates after the trim and returns `"a" + " "×99`, a string
that still carries trailing whitespace — the output is not trimmed. -/
theorem spec_c4_counterexample :
    sanitizeInput (some (String.mk ('a' :: (List.replicate 99 ' ' ++ ['b'])))) =
      some (String.mk ('a' :: List.replicate 99 ' '))
    ∧ jsTrimS (String.mk ('a' :: List.replicate 99 ' ')) ≠
        String.mk ('a' :: List.replicate 99 ' ') := by
  constructor
  · decide
  · decide

/-- Claim C4 (amended): `sanitizeInput` returns `null` exactly on missing
input and input that is empty after cleaning; a returned string contains
none of `% _ ' " \`, has length at most 100, is non-empty, and never starts
with whitespace; it is moreover fully trimmed whenever the cleaned string
fits the 100-character cap (truncation of a longer string may leave
trailing whitespace). -/
theorem spec_c4 (s : Option String) :
    (s = none → sanitizeInput s = none)
    ∧ (sanitizeInput s = none ↔
        (s = none ∨ ∃ str, s = some str ∧
          jsTrimList (str.toList.filter (fun c => !(badChar c))) = []))
    ∧ (∀ r, sanitizeInput s = some r →
        (∀ c ∈ r.toList, badChar c = false)
        ∧ r.toList.length ≤ MAX_SEARCH_LENGTH
        ∧ r ≠ ""
        ∧ (∀ c t, r.toList = c :: t → isWsChar c = false)
        ∧ (∀ str, s = some str →
            (jsTrimList (str.toList.filter (fun c => !(badChar c)))).length ≤ MAX_SEARCH_LENGTH →
            ∀ c t, r.toList = t ++ [c] → isWsChar c = false)) := by
  refine ⟨?_, ?_, ?_⟩
  · rintro rfl; rfl
  · cases s with
    | none => simp [sanitizeInput]
    | some str =>
      constructor
      · intro h
        by_cases hs : str = ""
        · exact Or.inr ⟨str, rfl, by rw [hs]; decide⟩
        · by_cases hc : (jsTrimList (str.toList.filter (fun c => !(badChar c)))).take MAX_SEARCH_LENGTH = []
          · rcases List.take_eq_nil_iff.mp hc with h0 | hnil
            · exact absurd h0 (by decide)
            · exact Or.inr ⟨str, rfl, hnil⟩
          · exfalso
            rw [sanitizeInput_eq, if_neg hs, if_neg hc] at h
            cases h
      · rintro (h | ⟨str', hstr', hnil⟩)
        · cases h
        · injection hstr' with h1
          subst h1
          rw [sanitizeInput_eq]
          by_cases hs : str = ""
          · rw [if_pos hs]
          · rw [if_neg hs, if_pos (by rw [hnil]; simp)]
  · intro r hr
    cases s with
    | none => cases hr
    | some str =>
      have hlist := sanitizeInput_some hr
      have hbad : ∀ c ∈ r.toList, badChar c = false := by
        intro c hc
        rw [hlist] at hc
        have hc2 := mem_jsTrimList (List.take_subset _ _ hc)
        have := (List.mem_filter.mp hc2).2
        simpa using this
      refine ⟨hbad, ?_, ?_, ?_, ?_⟩
      · rw [hlist, List.length_take]
        exact min_le_left _ _
      · intro hre
        subst hre
        have htake : (jsTrimList (str.toList.filter (fun c => !(badChar c)))).take MAX_SEARCH_LENGTH = [] :=
          hlist.symm
        rw [sanitizeInput_eq] at hr
        by_cases hs : str = ""
        · rw [if_pos hs] at hr
          cases hr
        · rw [if_neg hs, if_pos htake] at hr
          cases hr
      · intro c t hct
        rw [hlist] at hct
        obtain ⟨t', ht'⟩ := take_cons_ex hct
        exact jsTrimList_head ht'
      · intro str' hstr' hlen c t hct
        injection hstr' with h1
        subst h1
        rw [hlist, List.take_of_length_le hlen] at hct
        exact jsTrimList_last hct

/-- Claim C4, witness: sanitizing `" a%b "` yields `"ab"`, which contains
no special characters and is within the length cap. -/
theorem spec_c4_witness :
    (∀ c ∈ String.toList "ab", badChar c = false)
    ∧ (String.toList "ab").length ≤ MAX_SEARCH_LENGTH := by
  have h := (spec_c4 (some " a%b ")).2.2 "ab" (by decide)
  exact ⟨h.1, h.2.1⟩

/-! ## No false positives from the search query construction -/

/-- Case-insensitive containment of `v` in the string `hay` — the
specified meaning of an `ILIKE '%v%'` clause. -/
def ciContainsStr (hay v : String) : Prop :=
  (lowerStr v).toList <:+: (lowerStr hay).toList

/-- Case-insensitive containment in a nullable column: the column is
non-null and contains the value. -/
def ciContainsOpt (col : Option String) (v : String) : Prop :=
  ∃ s, col = some s ∧ ciContainsStr s v

/-- A field is free of LIKE wildcards: its lowercasing has no `%`, `_` or
`\` (this is what the upstream `sanitizeInput` guarantees for every value
that reaches the query layer). -/
def noWildField (v : Option String) : Bool :=
  match v with
  | none => true
  | some s => (lowerStr s).toList.all plainChar

/-- All pattern-matched fields of the filter are wildcard-free. -/
def filterPlain (f : PlaceFilter) : Bool :=
  noWildField f.cuisine_subtype && noWildField f.cuisine_category &&
    noWildField f.keyword && noWildField f.price_level

/-- A successful `ILIKE '%v%'` on a wildcard-free value is case-insensitive
containment. -/
lemma ilikeS_sub {col v : String} (hp : (lowerStr v).toList.all plainChar = true)
    (h : ilikeS col v = true) : ciContainsStr col v :=
  likeMatch_sub (fun c hc => (List.all_eq_true.mp hp) c hc) h

lemma ilikeOpt_sub {col : Option String} {v : String}
    (hp : (lowerStr v).toList.all plainChar = true)
    (h : ilikeOpt col v = true) : ciContainsOpt col v := by
  cases col with
  | none => cases h
  | some s => exact ⟨s, rfl, ilikeS_sub hp h⟩

lemma condOf_sub {v col : Option String}
    (hp : noWildField v = true) (h : condOf v col = true) :
    ∃ s, v = some s ∧ ciContainsOpt col s := by
  cases v with
  | none => cases h
  | some s =>
    have h2 : (if s = "" then false else ilikeOpt col s) = true := h
    by_cases hs : s = ""
    · rw [if_pos hs] at h2; cases h2
    · rw [if_neg hs] at h2
      exact ⟨s, rfl, ilikeOpt_sub hp h2⟩

/-- Claim C1: for a non-empty filter whose pattern fields are free of LIKE
wildcards, every row returned by the search route satisfies the condition
implied by each populated dimension: the OR'd cuisine clause, the keyword
containment over name/address/city, exact tag membership, and price
containment — distinct dimensions conjoined, candidates within the cuisine
dimension disjoined. -/
theorem spec_c1 (f : PlaceFilter) (db : List Place)
    (hne : hasAnyFilter f = true) (hplain : filterPlain f = true) :
    ∀ p ∈ placesSearchPOST f db,
      ((truthyOS f.cuisine_subtype || truthyOS f.cuisine_category) = true →
        (∃ s, f.cuisine_subtype = some s ∧ ciContainsOpt p.cuisine_subtype s) ∨
        (∃ s, f.cuisine_category = some s ∧ ciContainsOpt p.cuisine_category s))
      ∧ (∀ k, f.keyword = some k → k ≠ "" →
          ciContainsStr p.name k ∨ ciContainsOpt p.address k ∨ ciContainsOpt p.city k)
      ∧ (∀ t, f.tag = some t → t ≠ "" → ∃ l, p.tags = some l ∧ t ∈ l)
      ∧ (∀ v, f.price_level = some v → v ≠ "" → ciContainsOpt p.price_level v) := by
  intro p hp
  have hbranch : placesSearchPOST f db = (db.filter (rowMatches f)).take MAX_PLACES_LIMIT := by
    unfold placesSearchPOST
    rw [hne]
    simp
  rw [hbranch] at hp
  have hrow : rowMatches f p = true :=
    (List.mem_filter.mp (List.take_subset _ _ hp)).2
  unfold rowMatches at hrow
  simp only [Bool.and_eq_true] at hrow
  obtain ⟨⟨⟨⟨hcui, hkw⟩, htag⟩, hpr⟩, _⟩ := hrow
  have hplain4 : noWildField f.cuisine_subtype = true ∧ noWildField f.cuisine_category = true ∧
      noWildField f.keyword = true ∧ noWildField f.price_level = true := by
    unfold filterPlain at hplain
    simp only [Bool.and_eq_true] at hplain
    exact ⟨hplain.1.1.1, hplain.1.1.2, hplain.1.2, hplain.2⟩
  refine ⟨?_, ?_, ?_, ?_⟩
  · intro hcc
    unfold cuisineClause at hcui
    rw [if_pos hcc] at hcui
    rcases Bool.or_eq_true_iff.mp hcui with h | h
    · exact Or.inl (condOf_sub hplain4.1 h)
    · exact Or.inr (condOf_sub hplain4.2.1 h)
  · intro k hk hkne
    unfold keywordClause at hkw
    rw [hk] at hkw
    have hkw2 : (if k = "" then true
        else ilikeS p.name k || ilikeOpt p.address k || ilikeOpt p.city k) = true := hkw
    rw [if_neg hkne] at hkw2
    rcases Bool.or_eq_true_iff.mp hkw2 with h | h
    · rcases Bool.or_eq_true_iff.mp h with h2 | h2
      · have hpk : noWildField (some k) = true := by rw [← hk]; exact hplain4.2.2.1
        exact Or.inl (ilikeS_sub hpk h2)
      · have hpk : noWildField (some k) = true := by rw [← hk]; exact hplain4.2.2.1
        exact Or.inr (Or.inl (ilikeOpt_sub hpk h2))
    · have hpk : noWildField (some k) = true := by rw [← hk]; exact hplain4.2.2.1
      exact Or.inr (Or.inr (ilikeOpt_sub hpk h))
  · intro t ht htne
    unfold tagClause at htag
    rw [ht] at htag
    have htag2 : (if t = "" then true
        else match p.tags with
          | none => false
          | some l => l.contains t) = true := htag
    rw [if_neg htne] at htag2
    cases hptags : p.tags with
    | none => rw [hptags] at htag2; cases htag2
    | some l =>
      rw [hptags] at htag2
      refine ⟨l, rfl, ?_⟩
      simpa using htag2
  · intro v hv hvne
    unfold priceClause at hpr
    rw [hv] at hpr
    have hpr2 : (if v = "" then true else ilikeOpt p.price_level v) = true := hpr
    rw [if_neg hvne] at hpr2
    have hpv : noWildField (some v) = true := by rw [← hv]; exact hplain4.2.2.2
    exact ilikeOpt_sub hpv hpr2

/-- A concrete matching row for the C1 witness. -/
def placeRamen : Place :=
  { id := "1", name := "Tokyo Ramen Ya", address := some "1-2-3 Kabukicho",
    city := some "Tokyo", cuisine_subtype := some "Ramen",
    cuisine_category := some "Japanese", price_level := some "Budget",
    halal_status := some "Certified", tags := some ["no-alcohol"] }

/-- A concrete non-matching row for the C1 witness. -/
def placeSushi : Place :=
  { id := "2", name := "Osaka Sushi", address := none, city := some "Osaka",
    cuisine_subtype := some "Sushi", cuisine_category := some "Japanese",
    price_level := some "Mid-range", halal_status := none, tags := none }

/-- The concrete filter of the C1 witness. -/
def filterC1 : PlaceFilter :=
  { cuisine_subtype := some "Ramen", keyword := some "tokyo" }

/-- Claim C1, witness: on a concrete two-row table, the returned row
satisfies the keyword containment over name/address/city. -/
theorem spec_c1_witness :
    ciContainsStr (Place.name placeRamen) "tokyo"
    ∨ ciContainsOpt (Place.address placeRamen) "tokyo"
    ∨ ciContainsOpt (Place.city placeRamen) "tokyo" := by
  have h := spec_c1 filterC1 [placeRamen, placeSushi] (by decide) (by decide)
    placeRamen (by decide)
  exact h.2.1 "tokyo" rfl (by decide)

/-! ## The empty filter short-circuits to the unfiltered capped read -/

/-- A string field that is null, absent, or whitespace-only. -/
def emptyishStr (v : Option String) : Prop :=
  v = none ∨ ∃ s, v = some s ∧ jsTrimS s = ""

lemma strHasContent_false {v : Option String} (h : emptyishStr v) :
    strHasContent v = false := by
  rcases h with h | ⟨s, hs, htrim⟩
  · rw [h]; rfl
  · rw [hs]
    unfold strHasContent
    simp [htrim]

/-- Claim C2: a filter in which every field is null or absent (including
whitespace-only strings, an empty `search_terms` array, and no favorites
flag) takes the short-circuit branch and returns exactly what a request
with no filter at all returns: all rows capped at 2000. -/
theorem spec_c2 (f : PlaceFilter) (db : List Place)
    (h1 : emptyishStr f.cuisine_subtype) (h2 : emptyishStr f.cuisine_category)
    (h3 : emptyishStr f.price_level) (h4 : emptyishStr f.tag)
    (h5 : emptyishStr f.keyword)
    (h6 : f.search_terms = none ∨ f.search_terms = some [])
    (h7 : f.favorites = none) :
    placesSearchPOST f db = placesSearchPOST noFilterRequest db
    ∧ placesSearchPOST f db = db.take MAX_PLACES_LIMIT := by
  have hempty : hasAnyFilter f = false := by
    unfold hasAnyFilter
    rw [strHasContent_false h1, strHasContent_false h2, strHasContent_false h3,
      strHasContent_false h4, strHasContent_false h5, h7]
    rcases h6 with h6 | h6 <;> rw [h6] <;> rfl
  have hf : placesSearchPOST f db = db.take MAX_PLACES_LIMIT := by
    unfold placesSearchPOST
    rw [hempty]
    simp
  have hnone : placesSearchPOST noFilterRequest db = db.take MAX_PLACES_LIMIT := by
    unfold placesSearchPOST
    rw [(by decide : hasAnyFilter noFilterRequest = false)]
    simp
  exact ⟨hf.trans hnone.symm, hf⟩

/-- Claim C2, witness: a filter holding only a whitespace keyword, a
whitespace cuisine and an empty `search_terms` array behaves like no
filter on a concrete table. -/
theorem spec_c2_witness :
    placesSearchPOST
        { cuisine_subtype := some " ", keyword := some "  ", search_terms := some [] }
        [placeRamen, placeSushi] =
      placesSearchPOST noFilterRequest [placeRamen, placeSushi] := by
  have h := spec_c2
    { cuisine_subtype := some " ", keyword := some "  ", search_terms := some [] }
    [placeRamen, placeSushi]
    (Or.inr ⟨" ", rfl, by decide⟩) (Or.inl rfl) (Or.inl rfl) (Or.inl rfl)
    (Or.inr ⟨"  ", rfl, by decide⟩) (Or.inr rfl) rfl
  exact h.1

/-! ## Determinism and the "Best ramen in Shinjuku" scenario -/

/-- Claim C7: the fallback inference is a pure function — equal utterances
give equal filters (in particular the same populated field set) — and
`"Best ramen in Shinjuku"` resolves to `cuisine_subtype = "Ramen"` with a
keyword containing `"Shinjuku"`. -/
theorem spec_c7 :
    (∀ m₁ m₂ : String, m₁ = m₂ →
      inferFilterFromMessage m₁ = inferFilterFromMessage m₂)
    ∧ (inferFilterFromMessage "Best ramen in Shinjuku").cuisine_subtype = some "Ramen"
    ∧ ∃ k, (inferFilterFromMessage "Best ramen in Shinjuku").keyword = some k
        ∧ strIncludes k "Shinjuku" = true := by
  refine ⟨fun m₁ m₂ h => by rw [h], by decide, ⟨"Shinjuku", by decide, by decide⟩⟩

/-- Claim C7, witness: instantiating the determinism component at a
concrete utterance. -/
theorem spec_c7_witness :
    inferFilterFromMessage "halal sushi" = inferFilterFromMessage "halal sushi" :=
  spec_c7.1 "halal sushi" "halal sushi" rfl

/-! ## The 429 retry loop is unbounded -/

/-- A scripted 429 with `retryAfter: 2`. -/
def resp429 : SResp := { status := 429, retryAfter := some 2 }

/-- A scripted successful response. -/
def respOk : SResp := { status := 200, okMessage := some "Here you go!" }

/-- Claim C3, behaviour at the cited inputs: a single 429 followed by a
success gives exactly one retry, a sleep of at least the suggested 2
seconds, and one `"Retrying now..."` entry appended before the retry; a
successful first attempt appends no retry entry; but two consecutive 429s
drive a third attempt and a second retry entry — `processMessage` recurses
on every 429 with no bound, contradicting the single-bounded-retry claim. -/
theorem spec_c3 :
    ((processMessage [resp429, respOk] {}).attempts = 2
      ∧ (processMessage [resp429, respOk] {}).waitedMs = 2000
      ∧ retryingCount (processMessage [resp429, respOk] {}).messages = 1)
    ∧ (retryingCount (processMessage [respOk] {}).messages = 0
      ∧ (processMessage [respOk] {}).attempts = 1)
    ∧ ((processMessage [resp429, resp429, respOk] {}).attempts = 3
      ∧ retryingCount (processMessage [resp429, resp429, respOk] {}).messages = 2) := by
  refine ⟨⟨?_, ?_, ?_⟩, ⟨?_, ?_⟩, ⟨?_, ?_⟩⟩ <;> decide

/-! ## The favorites set -/

/-- Claim C9: the favorites operations behave as a set — adding a present
id is a no-op, repeated add leaves no duplicates, toggling an absent id
appends exactly that id and toggling again restores the original list,
remove deletes every occurrence, and the Favorites panel over a fresh
store after one toggle shows exactly the places with that id. -/
theorem spec_c9 (σ : List String) (id : String) :
    (σ.contains id = true → favoritesAdd σ id = σ)
    ∧ favoritesAdd (favoritesAdd σ id) id = favoritesAdd σ id
    ∧ (σ.contains id = false →
        favoritesToggle σ id = σ ++ [id]
        ∧ (favoritesToggle σ id).contains id = true
        ∧ favoritesToggle (favoritesToggle σ id) id = σ)
    ∧ (favoritesRemove σ id).contains id = false
    ∧ (∀ places : List Place,
        favoritePlaces places (favoritesToggle [] id) =
          places.filter (fun p => p.id == id)) := by
  have hms : ∀ x : String, ∀ l : List String, l.contains x = true ↔ x ∈ l := by
    intro x l; simp
  refine ⟨?_, ?_, ?_, ?_, ?_⟩
  · intro h
    unfold favoritesAdd
    rw [h]
    rfl
  · by_cases h : σ.contains id = true
    · have ha : favoritesAdd σ id = σ := by
        unfold favoritesAdd
        rw [h]
        rfl
      rw [ha]
      exact ha
    · have h' : σ.contains id = false := by
        cases hc : σ.contains id
        · rfl
        · exact absurd hc h
      have ha : favoritesAdd σ id = σ ++ [id] := by
        unfold favoritesAdd
        rw [h']
        simp
      have hc2 : (σ ++ [id]).contains id = true := by
        rw [hms]
        simp
      rw [ha]
      unfold favoritesAdd
      rw [hc2]
      simp
  · intro h
    have hne : id ∉ σ := by
      intro hmem
      rw [(hms id σ).mpr hmem] at h
      cases h
    have htog : favoritesToggle σ id = σ ++ [id] := by
      unfold favoritesToggle favoritesAdd
      rw [h]
      simp
    refine ⟨htog, ?_, ?_⟩
    · rw [htog, hms]
      simp
    · rw [htog]
      unfold favoritesToggle
      have hc : (σ ++ [id]).contains id = true := by
        rw [hms]
        simp
      rw [hc]
      simp only [if_true]
      unfold favoritesRemove
      rw [List.filter_append]
      have h1 : σ.filter (fun x => !(x == id)) = σ :=
        List.filter_eq_self.mpr (fun a ha => by
          simp only [Bool.not_eq_true']
          exact beq_false_of_ne (fun heq => hne (heq ▸ ha)))
      have h2 : [id].filter (fun x => !(x == id)) = [] := by simp
      rw [h1, h2, List.append_nil]
  · unfold favoritesRemove
    cases hc : (σ.filter (fun x => !(x == id))).contains id
    · rfl
    · exfalso
      have := (hms id _).mp hc
      have := (List.mem_filter.mp this).2
      simp at this
  · intro places
    unfold favoritePlaces favoritesToggle favoritesAdd favoritesRemove
    simp only [List.contains_nil, Bool.false_eq_true, if_false, List.nil_append]
    apply List.filter_congr
    intro p _
    by_cases hp : p.id = id <;> simp [hp]

/-- Claim C9, witness: the toggle laws instantiated on a concrete store. -/
theorem spec_c9_witness :
    favoritesToggle ["a", "b"] "c" = ["a", "b", "c"]
    ∧ favoritesToggle (favoritesToggle ["a", "b"] "c") "c" = ["a", "b"] := by
  have h := (spec_c9 ["a", "b"] "c").2.2.1 (by decide)
  exact ⟨h.1, h.2.2⟩

/-! ## Totality of browser-storage reads -/

/-- Claim C10, counterexample: the stored text `"42"` is valid JSON, so
`getStorageItem` returns the parsed value unchecked and
`favorites.getAll()` yields the number 42, not a list — the read is total,
but the "getAll returns a list" consequence fails for well-formed
non-array JSON. -/
theorem spec_c10_counterexample :
    favoritesGetAllRaw (StoredCell.stored (JVal.jnum 42)) = JVal.jnum 42
    ∧ (∀ l : List JVal, favoritesGetAllRaw (StoredCell.stored (JVal.jnum 42)) ≠ JVal.jarr l) := by
  constructor
  · rfl
  · intro l h
    cases h

/-- Claim C10 (amended): every storage read is total — `getStorageItem`
returns the stored parsed value, or the supplied fallback when the
environment is unavailable, the key is absent, or the text fails to parse;
consequently `favorites.getAll` yields `[]` and `getUsedCount` yields `0`
in every non-value state, and they return a list resp. a number whenever
the stored JSON has the expected type (a differently-typed stored value is
passed through unchecked); `getRemainingCount`, on a numeric counter, is
never negative even when the counter exceeds the quota. -/
theorem spec_c10 (cell : StoredCell) (fallback : JVal) :
    (getStorageItem cell fallback = fallback ∨
      ∃ v, cell = StoredCell.stored v ∧ getStorageItem cell fallback = v)
    ∧ (cell ≠ StoredCell.unavailable → cell ≠ StoredCell.absent →
        cell ≠ StoredCell.corrupt → ∃ v, cell = StoredCell.stored v)
    ∧ ((cell = StoredCell.unavailable ∨ cell = StoredCell.absent ∨ cell = StoredCell.corrupt) →
        favoritesGetAllRaw cell = JVal.jarr [] ∧ guestUsedCountRaw cell = JVal.jnum 0)
    ∧ (∀ l, cell = StoredCell.stored (JVal.jarr l) → favoritesGetAllRaw cell = JVal.jarr l)
    ∧ (∀ n, cell = StoredCell.stored (JVal.jnum n) →
        guestUsedCountRaw cell = JVal.jnum n
        ∧ guestRemainingCount cell = some (max 0 (MAX_FREE_QUERIES - n)))
    ∧ (∀ n, guestRemainingCount cell = some n → 0 ≤ n) := by
  refine ⟨?_, ?_, ?_, ?_, ?_, ?_⟩
  · cases cell with
    | unavailable => exact Or.inl rfl
    | absent => exact Or.inl rfl
    | corrupt => exact Or.inl rfl
    | stored v => exact Or.inr ⟨v, rfl, rfl⟩
  · intro h1 h2 h3
    cases cell with
    | unavailable => exact absurd rfl h1
    | absent => exact absurd rfl h2
    | corrupt => exact absurd rfl h3
    | stored v => exact ⟨v, rfl⟩
  · rintro (rfl | rfl | rfl) <;> exact ⟨rfl, rfl⟩
  · rintro l rfl
    rfl
  · rintro n rfl
    exact ⟨rfl, rfl⟩
  · intro n h
    unfold guestRemainingCount at h
    cases hc : guestUsedCountRaw cell with
    | jnum m =>
      rw [hc] at h
      injection h with h1
      rw [← h1]
      exact le_max_left 0 _
    | jstr s => rw [hc] at h; cases h
    | jbool b => rw [hc] at h; cases h
    | jnull => rw [hc] at h; cases h
    | jarr l => rw [hc] at h; cases h

/-- Claim C10, witness: a corrupted favorites key falls back to the empty
list, and a stored counter of 10 (exceeding the quota of 3) still leaves a
non-negative remaining count. -/
theorem spec_c10_witness :
    favoritesGetAllRaw StoredCell.corrupt = JVal.jarr []
    ∧ guestRemainingCount (StoredCell.stored (JVal.jnum 10)) = some 0
    ∧ (0 : Int) ≤ 0 := by
  have h1 := (spec_c10 StoredCell.corrupt (JVal.jarr [])).2.2.1 (Or.inr (Or.inr rfl))
  have h2 := (spec_c10 (StoredCell.stored (JVal.jnum 10)) (JVal.jnum 0)).2.2.2.2.1 10 rfl
  have h3 := (spec_c10 (StoredCell.stored (JVal.jnum 10)) (JVal.jnum 0)).2.2.2.2.2
    (max 0 (MAX_FREE_QUERIES - 10)) h2.2
  exact ⟨h1.1, by rw [h2.2]; rfl, by simp⟩

/-! ## Validation and truncation in the suggestion route -/

lemma truncReq_len (v : Option String) (n : Nat) :
    (truncReq v n).toList.length ≤ n := by
  cases v with
  | none => simp [truncReq]
  | some s =>
    unfold truncReq
    have : (String.mk ((jsTrimList s.toList).take n)).toList = (jsTrimList s.toList).take n := rfl
    rw [this, List.length_take]
    exact min_le_left _ _

lemma truncField_len {v : Option String} {n : Nat} {s : String}
    (h : truncField v n = some s) : s.toList.length ≤ n := by
  cases v with
  | none => cases h
  | some str =>
    have h2 : (if (jsTrimList str.toList).take n = [] then none
        else some (String.mk ((jsTrimList str.toList).take n))) = some s := h
    by_cases hc : (jsTrimList str.toList).take n = []
    · rw [if_pos hc] at h2
      cases h2
    · rw [if_neg hc] at h2
      injection h2 with h1
      rw [← h1]
      have h3 : (String.mk ((jsTrimList str.toList).take n)).toList =
          (jsTrimList str.toList).take n := rfl
      rw [h3, List.length_take]
      exact min_le_left _ _

/-- Claim C8: a suggestion with a missing or blank required field gets a
400 whose error message mentions both name and address, and nothing is
recorded; otherwise every recorded field is truncated to its cap (name
200, address 500, city/cuisine/halal 100, phone 50, website 500, notes
1000, email 200), the suggestion is recorded, and the response is a 200
with `success: true`. -/
theorem spec_c8 (b : SuggestBody) :
    ((jsBlank b.name || jsBlank b.address) = true →
      (suggestPOST b).1.status = 400
      ∧ (suggestPOST b).2 = none
      ∧ ∃ e, (suggestPOST b).1.error = some e
          ∧ strIncludes e "name" = true ∧ strIncludes e "address" = true)
    ∧ ((jsBlank b.name || jsBlank b.address) = false →
      (suggestPOST b).1.status = 200
      ∧ (suggestPOST b).1.success = some true
      ∧ ∃ d, (suggestPOST b).2 = some d
          ∧ d.name = truncReq b.name 200
          ∧ d.name.toList.length ≤ 200
          ∧ d.address.toList.length ≤ 500
          ∧ (∀ s, d.city = some s → s.toList.length ≤ 100)
          ∧ (∀ s, d.cuisine_type = some s → s.toList.length ≤ 100)
          ∧ (∀ s, d.halal_status = some s → s.toList.length ≤ 100)
          ∧ (∀ s, d.phone = some s → s.toList.length ≤ 50)
          ∧ (∀ s, d.website = some s → s.toList.length ≤ 500)
          ∧ (∀ s, d.notes = some s → s.toList.length ≤ 1000)
          ∧ (∀ s, d.submitter_email = some s → s.toList.length ≤ 200)) := by
  constructor
  · intro h
    unfold suggestPOST
    rw [h]
    refine ⟨rfl, rfl, "Restaurant name and address are required.", rfl, ?_, ?_⟩
    · decide
    · decide
  · intro h
    unfold suggestPOST
    rw [h]
    simp only [Bool.false_eq_true, if_false]
    refine ⟨trivial, trivial, _, rfl, rfl, truncReq_len _ _, truncReq_len _ _,
      ?_, ?_, ?_, ?_, ?_, ?_, ?_⟩ <;>
      exact fun s hs => truncField_len hs

/-- Claim C8, witness: a body missing the address is rejected with a 400,
and a complete body is recorded with `success: true`. -/
theorem spec_c8_witness :
    (suggestPOST { name := some "Yakiniku Star" }).1.status = 400
    ∧ (suggestPOST { name := some "Yakiniku Star", address := some "2-1 Ueno" }).1.success =
        some true := by
  have h1 := (spec_c8 { name := some "Yakiniku Star" }).1 (by decide)
  have h2 := (spec_c8 { name := some "Yakiniku Star", address := some "2-1 Ueno" }).2 (by decide)
  exact ⟨h1.1, h2.2.1⟩

/-! ## Normalization of the chat route's built filter -/

/-- A field value that is null or a non-empty string. -/
def optNonempty (v : Option String) : Prop :=
  v = none ∨ ∃ s, v = some s ∧ s ≠ ""

lemma truthyS_nonempty (a : Option String) : optNonempty (truthyS a) := by
  cases a with
  | none => exact Or.inl rfl
  | some s =>
    by_cases hs : s = ""
    · exact Or.inl (by simp [truthyS, hs])
    · exact Or.inr ⟨s, by simp [truthyS, hs], hs⟩

lemma jsOrS_nonempty (a b : Option String) : optNonempty (jsOrS a b) := by
  unfold jsOrS
  cases ha : truthyS a with
  | some s =>
    rcases truthyS_nonempty a with h | ⟨s', hs', hne⟩
    · rw [h] at ha; cases ha
    · rw [hs'] at ha
      injection ha with ha1
      exact Or.inr ⟨s, rfl, ha1 ▸ hne⟩
  | none => exact truthyS_nonempty b

lemma jsOrS_none_cases (b : Option String) :
    jsOrS none b = none ∨ jsOrS none b = b := by
  unfold jsOrS
  cases b with
  | some t =>
    by_cases ht : t = ""
    · exact Or.inl (by simp [truthyS, ht])
    · exact Or.inr (by simp [truthyS, ht])
  | none => exact Or.inl rfl

lemma inferred_cuisine_nonempty (m : String) :
    optNonempty (inferFilterFromMessage m).cuisine_subtype := by
  unfold inferFilterFromMessage optNonempty
  cases hf : cuisineMap.find? (fun kv => strIncludes (lowerStr m) kv.1) with
  | none => exact Or.inl (by simp [hf])
  | some kv =>
    refine Or.inr ⟨kv.2, by simp [hf], ?_⟩
    have hmem := List.mem_of_find?_eq_some hf
    have hall : ∀ kv ∈ cuisineMap, kv.2 ≠ "" := by decide
    exact hall kv hmem

lemma inferred_keyword_nonempty (m : String) :
    optNonempty (inferFilterFromMessage m).keyword := by
  unfold inferFilterFromMessage optNonempty
  cases hf : locationsList.find? (fun loc => strIncludes (lowerStr m) loc) with
  | none => exact Or.inl (by simp [hf])
  | some loc =>
    refine Or.inr ⟨capitalizeFirst loc, by simp [hf], ?_⟩
    have hmem := List.mem_of_find?_eq_some hf
    have hall : ∀ loc ∈ locationsList, capitalizeFirst loc ≠ "" := by decide
    exact hall loc hmem

lemma inferred_price_nonempty (m : String) :
    optNonempty (inferFilterFromMessage m).price_level := by
  unfold inferFilterFromMessage optNonempty
  simp only
  by_cases h1 : (strIncludes (lowerStr m) "cheap" || strIncludes (lowerStr m) "budget" ||
      strIncludes (lowerStr m) "affordable" || strIncludes (lowerStr m) "inexpensive") = true
  · rw [if_pos h1]; exact Or.inr ⟨"Budget", rfl, by decide⟩
  · rw [if_neg h1]
    by_cases h2 : (strIncludes (lowerStr m) "expensive" || strIncludes (lowerStr m) "fancy" ||
        strIncludes (lowerStr m) "fine dining" || strIncludes (lowerStr m) "upscale") = true
    · rw [if_pos h2]; exact Or.inr ⟨"Fine Dining", rfl, by decide⟩
    · rw [if_neg h2]
      by_cases h3 : (strIncludes (lowerStr m) "mid-range" || strIncludes (lowerStr m) "moderate") = true
      · rw [if_pos h3]; exact Or.inr ⟨"Mid-range", rfl, by decide⟩
      · rw [if_neg h3]; exact Or.inl rfl

lemma inferred_cat_tag_fav (m : String) :
    (inferFilterFromMessage m).cuisine_category = none
    ∧ (inferFilterFromMessage m).tag = none
    ∧ (inferFilterFromMessage m).favorites = none := by
  unfold inferFilterFromMessage
  exact ⟨rfl, rfl, rfl⟩

/-- Unfolding equation for the filter component of `buildResponse`. -/
lemma buildResponse_filter (parsed : Option ParsedObj) (userMessage : String)
    (places : Option (List Place)) :
    (buildResponse parsed userMessage places).filter =
      (match parsed with
       | some po =>
         (match po.filter with
          | some pf =>
            { cuisine_subtype := jsOrS (strField pf.cuisine_subtype)
                (inferFilterFromMessage userMessage).cuisine_subtype
              cuisine_category := jsOrS (strField pf.cuisine_category)
                (inferFilterFromMessage userMessage).cuisine_category
              price_level := jsOrS (strField pf.price_level)
                (inferFilterFromMessage userMessage).price_level
              tag := jsOrS (strField pf.tag) none
              keyword := jsOrS (strField pf.keyword)
                (inferFilterFromMessage userMessage).keyword
              favorites :=
                match pf.favorites with
                | JField.jbool b => some b
                | _ => none }
          | none => inferFilterFromMessage userMessage)
       | none => inferFilterFromMessage userMessage) := rfl

/-- Claim C5, counterexample: a model filter carrying the string
`" Ramen "` is passed through untrimmed — the built filter holds
`" Ramen "`, which differs from its own trim, refuting the "non-empty
trimmed string" invariant. -/
theorem spec_c5_counterexample :
    (buildResponse
        (some { filter := some { cuisine_subtype := JField.jstr " Ramen " } })
        "" none).filter.cuisine_subtype = some " Ramen "
    ∧ jsTrimS " Ramen " ≠ " Ramen " := by
  constructor
  · rfl
  · decide

/-- Claim C5 (amended): every filter built by the chat route's response
builder has each string field null or a non-empty string (not necessarily
trimmed — model-supplied strings pass through as-is), `favorites` strictly
boolean or null, a non-boolean model `favorites` defaulted to null, and a
non-string model `cuisine_subtype` defaulted to null or replaced by the
inferred fallback value. -/
theorem spec_c5 (parsed : Option ParsedObj) (userMessage : String)
    (places : Option (List Place)) :
    optNonempty (buildResponse parsed userMessage places).filter.cuisine_subtype
    ∧ optNonempty (buildResponse parsed userMessage places).filter.cuisine_category
    ∧ optNonempty (buildResponse parsed userMessage places).filter.price_level
    ∧ optNonempty (buildResponse parsed userMessage places).filter.tag
    ∧ optNonempty (buildResponse parsed userMessage places).filter.keyword
    ∧ ((buildResponse parsed userMessage places).filter.favorites = none ∨
        ∃ b, (buildResponse parsed userMessage places).filter.favorites = some b)
    ∧ (∀ po pf, parsed = some po → po.filter = some pf →
        ((∀ b, pf.favorites ≠ JField.jbool b) →
          (buildResponse parsed userMessage places).filter.favorites = none)
        ∧ ((∀ s, pf.cuisine_subtype ≠ JField.jstr s) →
          (buildResponse parsed userMessage places).filter.cuisine_subtype = none ∨
          (buildResponse parsed userMessage places).filter.cuisine_subtype =
            (inferFilterFromMessage userMessage).cuisine_subtype)) := by
  cases parsed with
  | none =>
    refine ⟨inferred_cuisine_nonempty _, ?_, inferred_price_nonempty _, ?_,
      inferred_keyword_nonempty _, ?_, ?_⟩
    · exact Or.inl (inferred_cat_tag_fav userMessage).1
    · exact Or.inl (inferred_cat_tag_fav userMessage).2.1
    · exact Or.inl (inferred_cat_tag_fav userMessage).2.2
    · intro po pf hpo
      cases hpo
  | some po =>
    obtain ⟨pofil, pomsg⟩ := po
    cases pofil with
    | none =>
      refine ⟨inferred_cuisine_nonempty _, ?_, inferred_price_nonempty _, ?_,
        inferred_keyword_nonempty _, ?_, ?_⟩
      · exact Or.inl (inferred_cat_tag_fav userMessage).1
      · exact Or.inl (inferred_cat_tag_fav userMessage).2.1
      · exact Or.inl (inferred_cat_tag_fav userMessage).2.2
      · intro po' pf' hpo' hpf'
        injection hpo' with h1
        rw [← h1] at hpf'
        have hpf2 : (none : Option ParsedFilter) = some pf' := hpf'
        cases hpf2
    | some pf =>
      refine ⟨jsOrS_nonempty _ _, jsOrS_nonempty _ _, jsOrS_nonempty _ _,
        jsOrS_nonempty _ _, jsOrS_nonempty _ _, ?_, ?_⟩
      · cases hfav : pf.favorites with
        | jbool b => exact Or.inr ⟨b, by simp [buildResponse, hfav]⟩
        | jstr s => exact Or.inl (by simp [buildResponse, hfav])
        | jnull => exact Or.inl (by simp [buildResponse, hfav])
        | jother => exact Or.inl (by simp [buildResponse, hfav])
      · intro po' pf' hpo' hpf'
        injection hpo' with h1
        rw [← h1] at hpf'
        have hpf2 : some pf = some pf' := hpf'
        injection hpf2 with h2
        subst h2
        constructor
        · intro hb
          cases hfav : pf.favorites with
          | jbool b => exact absurd hfav (hb b)
          | jstr s => simp [buildResponse, hfav]
          | jnull => simp [buildResponse, hfav]
          | jother => simp [buildResponse, hfav]
        · intro hs
          have hstr : strField pf.cuisine_subtype = none := by
            cases hcs : pf.cuisine_subtype with
            | jstr s => exact absurd hcs (hs s)
            | jbool b => rfl
            | jnull => rfl
            | jother => rfl
          have hfield : (buildResponse (some { filter := some pf, message := pomsg })
              userMessage places).filter.cuisine_subtype =
              jsOrS (strField pf.cuisine_subtype)
                (inferFilterFromMessage userMessage).cuisine_subtype := rfl
          rw [hfield, hstr]
          exact jsOrS_none_cases _

/-- Claim C5, witness: a parsed object with a null filter and null
favorites keeps `favorites = null` in the built filter. -/
theorem spec_c5_witness :
    (buildResponse (some { filter := some {} }) "x" none).filter.favorites = none := by
  have h := (spec_c5 (some { filter := some {} }) "x" none).2.2.2.2.2.2
    { filter := some {} } {} rfl rfl
  exact h.1 (by intro b hcontra; cases hcontra)

/-! ## Recovery of chat-route failures -/

lemma chatToolCall_ok_role {env : ChatEnv} {msgs : List CMsg} {u : String}
    {tc : ToolCall} {r : AssistantReply}
    (h : chatToolCall env msgs u tc = Except.ok r) : r.role = "assistant" := by
  unfold chatToolCall at h
  simp only [Bind.bind, Except.bind] at h
  split at h
  · cases h
  · split at h
    · cases h
    · simp only [pure, Except.pure] at h
      injection h with h1
      rw [← h1]

lemma chatPOSTBody_ok_role {env : ChatEnv} {r : AssistantReply}
    (h : chatPOSTBody env = Except.ok r) : r.role = "assistant" := by
  unfold chatPOSTBody at h
  simp only [Bind.bind, Except.bind] at h
  split at h
  · cases h
  · split at h
    · simp only [pure, Except.pure] at h
      injection h with h1
      rw [← h1]
      rfl
    · split at h
      · simp only [pure, Except.pure] at h
        injection h with h1
        rw [← h1]
        rfl
      · split at h
        · cases h
        · split at h
          · simp only [pure, Except.pure] at h
            injection h with h1
            rw [← h1]
            rfl
          · split at h
            · split at h
              · exact chatToolCall_ok_role h
              · simp only [pure, Except.pure] at h
                injection h with h1
                rw [← h1]
                rfl
            · simp only [pure, Except.pure] at h
              injection h with h1
              rw [← h1]
              rfl

/-- Claim C6 (amended): the chat endpoint never propagates an exception —
its reply always has the assistant role; any exception thrown inside the
body (a failing request parse or a failing language-model call included)
is converted by the catch-all into the templated all-null-filter reply.
Database failures, by contrast, are absorbed without throwing (see the
counterexample: the reply is then built from the inferred filter, which
need not be empty). -/
theorem spec_c6 (env : ChatEnv) :
    (chatPOST env).role = "assistant"
    ∧ (∀ e, chatPOSTBody env = Except.error e → chatPOST env = fallbackReply)
    ∧ (∀ e, env.request = Except.error e → chatPOST env = fallbackReply)
    ∧ (∀ e msgs, env.request = Except.ok { messages := some msgs } →
        msgs.isEmpty = false → env.llm msgs = Except.error e →
        chatPOST env = fallbackReply) := by
  have hfb : ∀ e, chatPOSTBody env = Except.error e → chatPOST env = fallbackReply := by
    intro e h
    unfold chatPOST
    rw [h]
  refine ⟨?_, hfb, ?_, ?_⟩
  · unfold chatPOST
    cases hb : chatPOSTBody env with
    | error e => rfl
    | ok r => exact chatPOSTBody_ok_role hb
  · intro e h
    apply hfb e
    unfold chatPOSTBody
    rw [h]
    rfl
  · intro e msgs hreq hne hllm
    apply hfb e
    unfold chatPOSTBody
    rw [hreq]
    simp only [Bind.bind, Except.bind]
    simp only [hne, Bool.false_eq_true, if_false, hllm]

/-- A concrete environment in which the database layer fails: the model
answers with empty content and no tool calls, and every database read
reports an error. -/
def envC6 : ChatEnv :=
  { request := Except.ok { messages := some [{ role := "user", content := "ramen please" }] }
    llm := fun _ => Except.ok
      { choices := [{ message := some { content := some "", tool_calls := [] } }] }
    db := fun _ => { data := none, error := some "database unreachable" }
    parseArgs := fun _ => Except.ok {}
    extract := fun _ => none }

/-- Claim C6, counterexample: under a failing database the endpoint still
answers (no exception, no error status), but the reply's filter is the
inferred `cuisine_subtype = "Ramen"`, not the all-null filter the claim
demands for upstream failures. -/
theorem spec_c6_counterexample :
    (ChatEnv.db envC6 {}).error = some "database unreachable"
    ∧ (chatPOST envC6).content.filter.cuisine_subtype = some "Ramen"
    ∧ (chatPOST envC6).content.filter ≠ emptyFilter
    ∧ chatPOST envC6 ≠ fallbackReply := by
  refine ⟨rfl, ?_, ?_, ?_⟩
  · decide
  · decide
  · decide

/-- Claim C6, witness: a request whose body fails to parse is answered
with the templated fallback reply, in assistant role. -/
def envC6err : ChatEnv :=
  { request := Except.error "invalid json"
    llm := fun _ => Except.error "unreachable"
    db := fun _ => {}
    parseArgs := fun _ => Except.error "bad args"
    extract := fun _ => none }

theorem spec_c6_witness :
    chatPOST envC6err = fallbackReply ∧ (chatPOST envC6err).role = "assistant" := by
  have h := spec_c6 envC6err
  exact ⟨h.2.2.1 "invalid json" rfl, h.1⟩
